import Mathlib

set_option maxRecDepth 8000

/-!
Shallow embedding of the PCI configuration-space decoder and renderer of
dyulu/device_examples: the layout tables, field extraction and table
rendering of `src/pci_header.c` (userspace, `print_pci_header`,
`int_2_hexstr`) and the kernel-module variant of the same code in
`src/pci_dev.c` (`print_pci_header` over a `struct pci_dev`).  The two
files carry byte-identical copies of the layout tables and of
`int_2_hexstr`, so those are embedded once and shared.  Machine integers
are modelled as `Nat` with explicit `% 2 ^ 64` / `% 2 ^ 32` where the C
code stores into `uint64_t` / `uint32_t`.
-/

/-- Embeds `struct config_space_bitfield`: one named region of PCI
configuration space (`name`, byte `offset`, byte `size`). -/
structure config_space_bitfield where
  name : String
  offset : Nat
  size : Nat
deriving DecidableEq, Repr

/-- Embeds the `type_0_header[]` table of `src/pci_header.c` (identical in
`src/pci_dev.c`): the PCI Type 0 (endpoint) header layout, ending in the
width-5 sentinel at offset 0x40. -/
def type_0_header : List config_space_bitfield :=
  [⟨"Vendor ID",                0x0,    2⟩,
   ⟨"Device ID",                0x2,    2⟩,
   ⟨"Command",                  0x4,    2⟩,
   ⟨"Status",                   0x6,    2⟩,
   ⟨"Revision ID",              0x8,    1⟩,
   ⟨"Class Code",               0xA,    3⟩,
   ⟨"Cache Line S",             0xC,    1⟩,
   ⟨"Lat. Timer",               0xD,    1⟩,
   ⟨"Header Type",              0xE,    1⟩,
   ⟨"BIST",                     0xF,    1⟩,
   ⟨"BAR 0",                    0x10,   4⟩,
   ⟨"BAR 1",                    0x14,   4⟩,
   ⟨"BAR 2",                    0x18,   4⟩,
   ⟨"BAR 3",                    0x1C,   4⟩,
   ⟨"BAR 4",                    0x20,   4⟩,
   ⟨"BAR 5",                    0x24,   4⟩,
   ⟨"Cardbus CIS Pointer",      0x28,   4⟩,
   ⟨"Subsystem Vendor ID",      0x2C,   2⟩,
   ⟨"Subsystem ID",             0x2E,   2⟩,
   ⟨"Expansion ROM Address",    0x30,   4⟩,
   ⟨"Cap. Pointer",             0x34,   1⟩,
   ⟨"Reserved",                 0x35,   3⟩,
   ⟨"Reserved",                 0x38,   4⟩,
   ⟨"IRQ",                      0x3C,   1⟩,
   ⟨"IRQ Pin",                  0x3D,   1⟩,
   ⟨"Min Gnt.",                 0x3E,   1⟩,
   ⟨"Max Lat.",                 0x3F,   1⟩,
   ⟨"End",                      0x40,   5⟩]

/-- Embeds the `type_1_header[]` table of `src/pci_header.c` (identical in
`src/pci_dev.c`): the PCI Type 1 (PCI-to-PCI bridge) header layout. -/
def type_1_header : List config_space_bitfield :=
  [⟨"Vendor ID",                0x0,    2⟩,
   ⟨"Device ID",                0x2,    2⟩,
   ⟨"Command",                  0x4,    2⟩,
   ⟨"Status",                   0x6,    2⟩,
   ⟨"Revision ID",              0x8,    1⟩,
   ⟨"Class Code",               0xA,    3⟩,
   ⟨"Cache Line S",             0xC,    1⟩,
   ⟨"Lat. Timer",               0xD,    1⟩,
   ⟨"Header Type",              0xE,    1⟩,
   ⟨"BIST",                     0xF,    1⟩,
   ⟨"BAR 0",                    0x10,   4⟩,
   ⟨"BAR 1",                    0x14,   4⟩,
   ⟨"Primary Bus",              0x18,   1⟩,
   ⟨"Secondary Bus",            0x19,   1⟩,
   ⟨"Sub. Bus",                 0x1A,   1⟩,
   ⟨"Sec Lat timer",            0x1B,   1⟩,
   ⟨"IO Base",                  0x1C,   1⟩,
   ⟨"IO Limit",                 0x1D,   1⟩,
   ⟨"Sec. Status",              0x1E,   2⟩,
   ⟨"Memory Limit",             0x20,   2⟩,
   ⟨"Memory Base",              0x22,   2⟩,
   ⟨"Pref. Memory Limit",       0x24,   2⟩,
   ⟨"Pref. Memory Base",        0x26,   2⟩,
   ⟨"Pref. Memory Base U",      0x28,   4⟩,
   ⟨"Pref. Memory Base L",      0x2C,   4⟩,
   ⟨"IO Base Upper",            0x30,   2⟩,
   ⟨"IO Limit Upper",           0x32,   2⟩,
   ⟨"Cap. Pointer",             0x34,   1⟩,
   ⟨"Reserved",                 0x35,   3⟩,
   ⟨"Exp. ROM Base Addr",       0x38,   4⟩,
   ⟨"IRQ Line",                 0x3C,   1⟩,
   ⟨"IRQ Pin",                  0x3D,   1⟩,
   ⟨"Min Gnt.",                 0x3E,   1⟩,
   ⟨"Max Lat.",                 0x3F,   1⟩,
   ⟨"End",                      0x40,   5⟩]

/-- Embeds `struct config_space_bitfield *types[2]`: the 2-element table
of layouts indexed by the header-type discriminant. -/
def types : List (List config_space_bitfield) := [type_0_header, type_1_header]

/-- Embeds the `letters[]` array of `int_2_hexstr`. -/
def letters : List Char :=
  ['0', '1', '2', '3', '4', '5', '6', '7', '8', '9', 'A', 'B', 'C', 'D', 'E', 'F']

/-- Embeds the array read `letters[(value & 0xf)]` in `int_2_hexstr`. -/
def hexDigit (value : Nat) : Char := letters.getD (value &&& 0xf) '0'

/-- Embeds the while loop of `int_2_hexstr`:
`while((value > 0) && (i>1)) destination[i] = letters[value & 0xf]; value >>= 4; i--;`.
The loop condition `value > 0 && i > 1` is expressed by matching on `i`:
for `i ≤ 1` the loop body never runs. -/
def int2HexLoop : Nat → Nat → List Char → List Char
  | _, 0, buf => buf
  | _, 1, buf => buf
  | value, i + 2, buf =>
    if 0 < value then
      int2HexLoop (value >>> 4) (i + 1) (buf.set (i + 2) (hexDigit value))
    else buf

/-- Embeds `int_2_hexstr(uint32_t value, unsigned int size, char *destination)`
of `src/pci_header.c` / `src/pci_dev.c` as a function returning the buffer
contents (without the trailing NUL): the buffer is initialised to
`"0x"` followed by `size` copies of `"00"`, then the loop overwrites digits
from index `2 + 2*size - 1` downwards. -/
def int_2_hexstr (value size : Nat) : List Char :=
  int2HexLoop value (2 + 2 * size - 1) ('0' :: 'x' :: List.replicate (2 * size) '0')

/-- Embeds line 289 of `src/pci_header.c` (line 264 of `src/pci_dev.c`):
`mask = ((1L<<(size * 8))-1) << (8*(offset - i))`, where `d = offset - i`
is the byte distance from the window base and the result is stored in a
`uint64_t`. -/
def bitfieldMask (size d : Nat) : Nat :=
  ((((1 <<< (size * 8)) - 1) <<< (8 * d))) % 2 ^ 64

/-- Embeds line 290 of `src/pci_header.c` (line 265 of `src/pci_dev.c`):
`bf_value = (value & mask) >> (8*(offset - i))`, stored in a `uint32_t`. -/
def extractBitfield (raw size d : Nat) : Nat :=
  ((raw &&& bitfieldMask size d) >>> (8 * d)) % 2 ^ 32

/-- Lowercase hex rendering of a number, as C `printf("%x", n)`. -/
def hexLower (n : Nat) : String := String.mk (Nat.toDigits 16 n)

/-- Two-digit zero-padded lowercase hex, as C `printf("%02x", n)`. -/
def hex02 (n : Nat) : String :=
  String.mk (List.replicate (2 - (Nat.toDigits 16 n).length) '0' ++ Nat.toDigits 16 n)

example : int_2_hexstr 0x10B5 2 = ['0', 'x', '1', '0', 'B', '5'] := by decide
example : int_2_hexstr 0x880 3 = ['0', 'x', '0', '0', '0', '8', '8', '0'] := by decide
example : int_2_hexstr 0xDEADBEEF 2 = ['0', 'x', 'B', 'E', 'E', 'F'] := by decide
example : extractBitfield 0x00261817 1 2 = 0x26 := by decide
example : bitfieldMask 4 3 = 0xFFFFFFFF000000 := by decide
example : hex02 0x3C = "3c" := by rfl

/-- Embeds the run-collection performed by both while loops of
`print_pci_header`: starting at cursor `b` (the `bitfield` index), take the
consecutive specs whose `offset` is below `i + 4` for window base `i`.
The C loop walks the array by index with no bounds check, relying on the
sentinel at offset 0x40 to stop; the suffix-based `takeWhile` computes the
same run for every list that contains such a stopper. -/
def runFrom (layout : List config_space_bitfield) (i b : Nat) :
    List config_space_bitfield :=
  (layout.drop b).takeWhile (fun s => decide (s.offset < i + 4))

/-- Embeds one label cell of the definition row (lines 268-275 of
`src/pci_header.c`): column width `14*size + (size-1)`, the name centred by
`padding = (space_available - strlen(name)) / 2` spaces on the left and
space-filled up to `space_available` on the right. -/
def label_cell (s : config_space_bitfield) : List Char :=
  let space_available := 14 * s.size + (s.size - 1)
  let padding := (space_available - s.name.length) / 2
  List.replicate padding ' ' ++ s.name.toList
    ++ List.replicate (space_available - (padding + s.name.length)) ' '

/-- Embeds one value cell of the value row (lines 288-301 of
`src/pci_header.c`): the bitfield is mask-extracted from the raw dword of
window base `i`, rendered by `int_2_hexstr`, and padded with
`padding = (space_available - (2 + size)) / 2` spaces on the left and
space-filled up to `space_available` on the right. -/
def value_cell (s : config_space_bitfield) (i raw : Nat) : List Char :=
  let space_available := 14 * s.size + (s.size - 1)
  let padding := (space_available - (2 + s.size)) / 2
  let str_value := int_2_hexstr (extractBitfield raw s.size (s.offset - i)) s.size
  List.replicate padding ' ' ++ str_value
    ++ List.replicate (space_available - (padding + str_value.length)) ' '

/-- Embeds the banner printed at line 260 of `src/pci_header.c`
(line 235 of `src/pci_dev.c`), spacing kept verbatim. -/
def banner_line : String :=
  "|    Byte 0    |   Byte 1     |    Byte 2    |    Byte 3    |    |    Byte 0    |   Byte 1     |    Byte 2    |    Byte 3    |"

/-- Embeds the separator printed after every window (line 306 of
`src/pci_header.c`). -/
def separator_line : String :=
  "|-----------------------------------------------------------|    |-----------------------------------------------------------|"

/-- Embeds the second banner line (line 261 of `src/pci_header.c`):
the separator with the trailing `Address` column label. -/
def sep_addr_line : String := separator_line ++ "    Address"

/-- Embeds one iteration of the `for (i=0; i<0x40; i+=4)` loop body of
`print_pci_header` for window base `i` and cursor `b`: the combined output
line (label cells, the four-space gap, value cells built from the dword
`read i`, and the trailing `"    0x%02x"` window address) together with the
cursor value left in `bitfield` for the next window.  The value loop breaks
on a width-5 spec before any mask is computed (`takeWhile` below), and the
next window resumes from where the value loop stopped. -/
def window_line (layout : List config_space_bitfield) (read : Nat → Nat)
    (i b : Nat) : String × Nat :=
  let run := runFrom layout i b
  let labelPart := "|" ++ String.join (run.map (fun s => String.mk (label_cell s) ++ "|"))
  let value := read i
  let vspecs := run.takeWhile (fun s => s.size != 5)
  let valuePart :=
    "    |" ++ String.join (vspecs.map (fun s => String.mk (value_cell s i value) ++ "|"))
  (labelPart ++ valuePart ++ "    0x" ++ hex02 i, b + vspecs.length)

/-- Embeds the window loop `for (i=0; i<0x40; i+=4)` of `print_pci_header`:
`fuel` counts the remaining iterations (16 when starting at `i = 0`); each
iteration contributes the combined label/value line and a separator line. -/
def renderLoop (layout : List config_space_bitfield) (read : Nat → Nat) :
    Nat → Nat → Nat → List String
  | 0, _, _ => []
  | fuel + 1, i, b =>
    (window_line layout read i b).1 :: separator_line ::
      renderLoop layout read fuel (i + 4) (window_line layout read i b).2

/-- Embeds lines 260-307 of `src/pci_header.c`: the full table emitted for
one layout from a dword-read capability, as the list of output lines. -/
def renderTable (layout : List config_space_bitfield) (read : Nat → Nat) :
    List String :=
  banner_line :: sep_addr_line :: renderLoop layout read 16 0 0

/-- Embeds `ctypes` of `print_pci_header`. -/
def ctypes : List String := ["n Endpoint", " Bridge"]

/-- Embeds `print_pci_header(uint8_t bus, uint8_t dev, uint8_t func)` of
`src/pci_header.c`, with the header-type byte and the dword reads supplied
as capabilities (`pci_cfg_reg_read_header_type` / `pci_cfg_reg_read_dword`
are port I/O and stay outside the embedding).  A discriminant other than 0
or 1 is rejected up front with the two error lines and nothing else is
produced; otherwise the device line and the table are emitted. -/
def print_pci_header (bus dev func header_type : Nat) (read : Nat → Nat) :
    Except (List String) (List String) :=
  if header_type ≠ 0 ∧ header_type ≠ 1 then
    Except.error
      ["Unknown PCI header type: " ++ hexLower header_type,
       "Selected device " ++ hexLower bus ++ ":" ++ hexLower dev ++ ":"
         ++ hexLower func ++ " is an unknown type"]
  else
    Except.ok
      (("Selected device " ++ hexLower bus ++ ":" ++ hexLower dev ++ ":"
          ++ hexLower func ++ " is a" ++ ctypes.getD header_type "")
        :: renderTable (types.getD header_type []) read)

/-- Embeds the fields of `struct pci_dev` that the kernel-module variant in
`src/pci_dev.c` reads: `hdr_type`, `bus->number`, `devfn`, and the config
reads through `pci_read_config_dword`. -/
structure pci_dev_state where
  hdr_type : Nat
  bus_number : Nat
  devfn : Nat
  cfg_read : Nat → Nat

/-- Embeds `print_pci_header(struct pci_dev *pdev)` of `src/pci_dev.c`.
A NULL `pdev` returns immediately with no output (`some []`).  Otherwise
the code performs no validity check on `hdr_type`: it executes
`ptr = types[header_type]` directly, so any discriminant outside the index
range of the 2-element table is an out-of-bounds array read (undefined
behaviour in the C), modelled as `none`. -/
def print_pci_header_dev (pdev : Option pci_dev_state) : Option (List String) :=
  match pdev with
  | none => some []
  | some dev =>
    match types.get? dev.hdr_type with
    | none => none
    | some ptr =>
      some
        (("Selected device " ++ hexLower dev.bus_number ++ ":"
            ++ hexLower (dev.devfn &&& 0xF8) ++ ":" ++ hexLower (dev.devfn &&& 0x07)
            ++ " is a" ++ ctypes.getD dev.hdr_type "")
          :: renderTable ptr dev.cfg_read)

/-- Mirrors `renderLoop`, recording for each window the run of specs its
label loop walks (and threading the cursor exactly as the render does). -/
def runsLoop (layout : List config_space_bitfield) :
    Nat → Nat → Nat → List (List config_space_bitfield)
  | 0, _, _ => []
  | fuel + 1, i, b =>
    runFrom layout i b ::
      runsLoop layout fuel (i + 4)
        (b + ((runFrom layout i b).takeWhile (fun s => s.size != 5)).length)

/-- The 16 per-window spec runs the renderer walks for a layout. -/
def windowRuns (layout : List config_space_bitfield) :
    List (List config_space_bitfield) :=
  runsLoop layout 16 0 0

/-- The name/value pairs the value loop of `print_pci_header` extracts for
the window with base `i` and cursor `b` from raw dword `raw`: the specs of
the run up to a width-5 break, each mask-extracted by `extractBitfield`. -/
def windowDecode (layout : List config_space_bitfield) (i b raw : Nat) :
    List (String × Nat) :=
  (((runFrom layout i b).takeWhile (fun s => s.size != 5)).map
    (fun s => (s.name, extractBitfield raw s.size (s.offset - i))))

example : runFrom type_1_header 0x18 12
    = [⟨"Primary Bus", 0x18, 1⟩, ⟨"Secondary Bus", 0x19, 1⟩,
       ⟨"Sub. Bus", 0x1A, 1⟩, ⟨"Sec Lat timer", 0x1B, 1⟩] := by decide

/-! Lemmas about the `int_2_hexstr` digit loop. -/

/-- The digit loop never changes the buffer length. -/
lemma int2HexLoop_length : ∀ (i value : Nat) (buf : List Char),
    (int2HexLoop value i buf).length = buf.length := by
  intro i
  induction i using Nat.strong_induction_on with
  | _ i ih =>
    intro value buf
    rcases i with _ | _ | m
    · rfl
    · rfl
    · by_cases hv : 0 < value
      · simp [int2HexLoop, hv, ih (m + 1) (by omega)]
      · simp [int2HexLoop, hv]

/-- The digit loop started at index `i` leaves every position below 2 and
every position above `i` unchanged. -/
lemma int2HexLoop_get_untouched : ∀ (i value : Nat) (buf : List Char) (j : Nat),
    (j < 2 ∨ i < j) → (int2HexLoop value i buf)[j]? = buf[j]? := by
  intro i
  induction i using Nat.strong_induction_on with
  | _ i ih =>
    intro value buf j hj
    rcases i with _ | _ | m
    · rfl
    · rfl
    · by_cases hv : 0 < value
      · simp only [int2HexLoop, if_pos hv]
        rw [ih (m + 1) (by omega) _ _ j (by omega)]
        exact List.getElem?_set_ne (by omega)
      · simp [int2HexLoop, hv]

/-- Main loop invariant of `int_2_hexstr`: when the loop starts at index
`i` inside the buffer and position `j` (a digit position, `2 ≤ j ≤ i`)
holds `'0'`, the final buffer holds at `j` the hex digit of
`value >>> (4 * (i - j))` — uniformly, because a zero nibble re-writes the
`'0'` already there. -/
lemma int2HexLoop_get : ∀ (i value : Nat) (buf : List Char) (j : Nat),
    2 ≤ j → j ≤ i → i < buf.length → buf[j]? = some '0' →
    (int2HexLoop value i buf)[j]? = some (hexDigit (value >>> (4 * (i - j)))) := by
  intro i
  induction i using Nat.strong_induction_on with
  | _ i ih =>
    intro value buf j h2 hji hib hbuf
    rcases i with _ | _ | m
    · omega
    · omega
    · by_cases hv : 0 < value
      · simp only [int2HexLoop, if_pos hv]
        by_cases hj : j = m + 2
        · subst hj
          rw [int2HexLoop_get_untouched (m + 1) _ _ _ (by omega)]
          rw [List.getElem?_set_self (by omega)]
          simp
        · have hj' : j ≤ m + 1 := by omega
          rw [ih (m + 1) (by omega) (value >>> 4) _ j h2 hj'
              (by rw [List.length_set]; omega)
              (by rw [List.getElem?_set_ne (by omega)]; exact hbuf)]
          have he : 4 + 4 * (m + 1 - j) = 4 * (m + 1 + 1 - j) := by omega
          rw [← Nat.shiftRight_add, he]
      · have hz : value = 0 := by omega
        subst hz
        simp only [int2HexLoop, if_neg hv]
        rw [hbuf]
        simp [hexDigit, letters]

/-- Closed form of `int_2_hexstr`: the buffer comes back as `"0x"` followed
by the `2*size` hex digits of `value`, most significant nibble first,
zero-padded on the left and truncated to the low `2*size` nibbles. -/
lemma int_2_hexstr_eq (value size : Nat) :
    int_2_hexstr value size
      = '0' :: 'x' :: (List.range (2 * size)).map
          (fun k => hexDigit (value >>> (4 * (2 * size - 1 - k)))) := by
  have hi : 2 + 2 * size - 1 = 2 * size + 1 := by omega
  apply List.ext_getElem?
  intro n
  rcases n with _ | _ | k
  · rw [int_2_hexstr, int2HexLoop_get_untouched _ _ _ _ (by omega)]
    simp
  · rw [int_2_hexstr, int2HexLoop_get_untouched _ _ _ _ (by omega)]
    simp
  · by_cases hk : k < 2 * size
    · rw [int_2_hexstr, hi, int2HexLoop_get (2 * size + 1) value _ (k + 2)
          (by omega) (by omega) (by simp) (by simp [hk])]
      have hrhs : ('0' :: 'x' :: (List.range (2 * size)).map
          (fun k => hexDigit (value >>> (4 * (2 * size - 1 - k)))))[k + 2]?
          = some (hexDigit (value >>> (4 * (2 * size - 1 - k)))) := by
        simp [List.getElem?_range hk]
      rw [hrhs]
      congr 3
      omega
    · rw [int_2_hexstr, hi, int2HexLoop_get_untouched _ _ _ _ (by omega)]
      rw [List.getElem?_eq_none (by simp; omega),
          List.getElem?_eq_none (by simp; omega)]

/-- The rendered hex string always has exactly `2 + 2*size` characters. -/
lemma int_2_hexstr_length (value size : Nat) :
    (int_2_hexstr value size).length = 2 + 2 * size := by
  rw [int_2_hexstr_eq]
  simp
  omega

/-! Claim-side (specification) definitions, written from the spec text
rather than the source, for comparison against the embedded code. -/

/-- Uppercase hexadecimal digit character for a nibble, per the spec
wording ("uppercase hexadecimal digits"). -/
def upperHexDigit (n : Nat) : Char :=
  if n < 10 then Char.ofNat (0x30 + n) else Char.ofNat (0x37 + n)

/-- Whether a character is an uppercase hexadecimal digit. -/
def isUpperHexDigit (c : Char) : Bool :=
  (decide ('0' ≤ c) && decide (c ≤ '9')) || (decide ('A' ≤ c) && decide (c ≤ 'F'))

/-- Zero-padded uppercase hex digits of `value`, exactly `n` of them, most
significant first (the low `n` nibbles of `value`). -/
def hexStringPadded (n value : Nat) : List Char :=
  (List.range n).map (fun k => upperHexDigit (value / 16 ^ (n - 1 - k) % 16))

/-- Spec predicate: consecutive specs have strictly ascending offsets. -/
def sortedByOffset (l : List config_space_bitfield) : Bool :=
  (l.zip l.tail).all (fun p => decide (p.1.offset < p.2.offset))

/-- Spec predicate: consecutive spans do not overlap,
`offset_i + width_i ≤ offset_(i+1)`. -/
def disjointSpans (l : List config_space_bitfield) : Bool :=
  (l.zip l.tail).all (fun p => decide (p.1.offset + p.1.size ≤ p.2.offset))

/-- Spec predicate: every byte of `[0, 0x40)` lies in some spec's span. -/
def coversRange (l : List config_space_bitfield) : Bool :=
  (List.range 0x40).all
    (fun b => l.any (fun s => decide (s.offset ≤ b) && decide (b < s.offset + s.size)))

/-- The source digit table agrees with the spec-side uppercase digit map on
all sixteen nibbles. -/
lemma letters_getD_eq : ∀ k, k < 16 → letters.getD k '0' = upperHexDigit k := by
  decide

/-- Bridge from the loop form of a digit to the positional spec form. -/
lemma hexDigit_shift_eq (value e : Nat) :
    hexDigit (value >>> (4 * e)) = upperHexDigit (value / 16 ^ e % 16) := by
  have h16 : (16 : Nat) ^ e = 2 ^ (4 * e) := by
    rw [show (16 : Nat) = 2 ^ 4 by norm_num, ← pow_mul]
  have hmod : value >>> (4 * e) &&& 0xf = value / 16 ^ e % 16 := by
    rw [Nat.shiftRight_eq_div_pow, h16]
    exact Nat.and_pow_two_sub_one_eq_mod _ 4
  rw [hexDigit, hmod]
  exact letters_getD_eq _ (Nat.mod_lt _ (by norm_num))

/-! Lemmas about the 64-bit mask arithmetic. -/

/-- For every field geometry that actually occurs (width at most 4 bytes,
at most 3 bytes from the window base), the 64-bit store of the mask does
not truncate: the C `uint64_t` intermediate equals the unbounded value. -/
lemma bitfieldMask_eq (size d : Nat) (hs : size ≤ 4) (hd : d ≤ 3) :
    bitfieldMask size d = ((1 <<< (size * 8)) - 1) <<< (8 * d) := by
  rw [bitfieldMask]
  apply Nat.mod_eq_of_lt
  rw [Nat.shiftLeft_eq, Nat.shiftLeft_eq, one_mul]
  calc (2 ^ (size * 8) - 1) * 2 ^ (8 * d)
      < 2 ^ (size * 8) * 2 ^ (8 * d) := by
        have := Nat.two_pow_pos (size * 8)
        have := Nat.two_pow_pos (8 * d)
        exact Nat.mul_lt_mul_of_lt_of_le (by omega) (le_refl _) (by omega)
    _ = 2 ^ (size * 8 + 8 * d) := (pow_add 2 _ _).symm
    _ ≤ 2 ^ 56 := Nat.pow_le_pow_right (by omega) (by omega)
    _ < 2 ^ 64 := by norm_num

/-- The extracted bitfield value fits `uint32_t`, so the store of
`bf_value` does not truncate either: the whole extraction equals the
unbounded mask-and-shift of the claim. -/
lemma extractBitfield_eq (raw size d : Nat)
    (hraw : raw < 2 ^ 32) (hs : size ≤ 4) (hd : d ≤ 3) :
    extractBitfield raw size d
      = (raw &&& (((1 <<< (size * 8)) - 1) <<< (8 * d))) >>> (8 * d) := by
  rw [extractBitfield, bitfieldMask_eq size d hs hd]
  apply Nat.mod_eq_of_lt
  have h1 : raw &&& (((1 <<< (size * 8)) - 1) <<< (8 * d)) ≤ raw := Nat.and_le_left
  have h2 := Nat.shiftRight_eq_div_pow
    (raw &&& (((1 <<< (size * 8)) - 1) <<< (8 * d))) (8 * d)
  have h3 := Nat.div_le_self
    (raw &&& (((1 <<< (size * 8)) - 1) <<< (8 * d))) (2 ^ (8 * d))
  omega

/-- Every spec of either layout table is either the width-5 sentinel or at
most 4 bytes wide. -/
lemma layout_sizes :
    ∀ s ∈ type_0_header ++ type_1_header, s.size = 5 ∨ s.size ≤ 4 := by
  decide

/-! Structural lemmas about the window loop of the renderer. -/

/-- Each remaining window contributes exactly two output lines. -/
lemma renderLoop_length (layout : List config_space_bitfield) (read : Nat → Nat) :
    ∀ (fuel i b : Nat), (renderLoop layout read fuel i b).length = 2 * fuel := by
  intro fuel
  induction fuel with
  | zero => intro i b; rfl
  | succ f ih =>
    intro i b
    simp only [renderLoop, List.length_cons, ih]
    omega

/-- Every odd position of the window-loop output is the separator line. -/
lemma renderLoop_get_odd (layout : List config_space_bitfield) (read : Nat → Nat) :
    ∀ (fuel k i b : Nat), k < fuel →
      (renderLoop layout read fuel i b)[2 * k + 1]? = some separator_line := by
  intro fuel
  induction fuel with
  | zero => intro k i b h; omega
  | succ f ih =>
    intro k i b h
    rcases k with _ | k
    · simp [renderLoop]
    · have h2 : 2 * (k + 1) + 1 = (2 * k + 1) + 1 + 1 := by omega
      rw [h2]
      simp only [renderLoop, List.getElem?_cons_succ]
      exact ih k (i + 4) _ (by omega)

/-- Every even position of the window-loop output is the combined
label/value line of the corresponding window, produced by `window_line`
at window base `i + 4*k` and some cursor. -/
lemma renderLoop_get_even (layout : List config_space_bitfield) (read : Nat → Nat) :
    ∀ (fuel k i b : Nat), k < fuel →
      ∃ b', (renderLoop layout read fuel i b)[2 * k]?
        = some (window_line layout read (i + 4 * k) b').1 := by
  intro fuel
  induction fuel with
  | zero => intro k i b h; omega
  | succ f ih =>
    intro k i b h
    rcases k with _ | k
    · exact ⟨b, by simp [renderLoop]⟩
    · have h2 : 2 * (k + 1) = (2 * k) + 1 + 1 := by omega
      rw [h2]
      simp only [renderLoop, List.getElem?_cons_succ]
      obtain ⟨b', hb'⟩ := ih k (i + 4) (window_line layout read i b).2 (by omega)
      exact ⟨b', by rw [hb']; congr 3; omega⟩

/-- The combined line of one window depends on the read capability only
through the dword at the window base. -/
lemma window_line_congr (layout : List config_space_bitfield)
    (read read' : Nat → Nat) (i b : Nat) (h : read i = read' i) :
    window_line layout read i b = window_line layout read' i b := by
  simp only [window_line, h]

/-- The window loop depends on the read capability only through the dwords
at the window bases `i, i+4, …` it visits. -/
lemma renderLoop_congr (layout : List config_space_bitfield)
    (read read' : Nat → Nat) :
    ∀ (fuel i b : Nat), (∀ k, k < fuel → read (i + 4 * k) = read' (i + 4 * k)) →
      renderLoop layout read fuel i b = renderLoop layout read' fuel i b := by
  intro fuel
  induction fuel with
  | zero => intro i b _; rfl
  | succ f ih =>
    intro i b h
    have hi : read i = read' i := by
      have := h 0 (by omega)
      simpa using this
    simp only [renderLoop, window_line_congr layout read read' i b hi]
    rw [ih (i + 4) _ (fun k hk => by
      have := h (k + 1) (by omega)
      rw [show i + 4 * (k + 1) = i + 4 + 4 * k by omega] at this
      exact this)]

/-! The claims. -/

/-- C1: for every window base `w` in 0x00, 0x04, …, 0x3C and every
non-sentinel spec of either layout whose offset lies in the window
`[w, w+4)`, the decoder extracts the field as
`(raw & mask) >> (8*(offset-w))` with
`mask = ((1 << (size*8)) - 1) << (8*(offset-w))`, and the 64-bit
intermediate of the C code equals the unbounded value: the width-4 mask
combined with a shift of up to 24 bits never overflows. -/
theorem c1_mask_extraction (ht w k : Nat) (s : config_space_bitfield) (raw : Nat)
    (hht : ht < 2) (hw4 : w % 4 = 0) (hw : w < 0x40)
    (hk : (types.getD ht []).get? k = some s) (hs5 : s.size ≠ 5)
    (hlo : w ≤ s.offset) (hhi : s.offset < w + 4) (hraw : raw < 2 ^ 32) :
    bitfieldMask s.size (s.offset - w)
      = ((1 <<< (s.size * 8)) - 1) <<< (8 * (s.offset - w)) ∧
    extractBitfield raw s.size (s.offset - w)
      = (raw &&& (((1 <<< (s.size * 8)) - 1) <<< (8 * (s.offset - w))))
          >>> (8 * (s.offset - w)) := by
  have hmem : s ∈ type_0_header ++ type_1_header := by
    interval_cases ht
    · exact List.mem_append_left _ (List.get?_mem hk)
    · exact List.mem_append_right _ (List.get?_mem hk)
  have hs : s.size ≤ 4 := by
    rcases layout_sizes s hmem with h | h
    · exact absurd h hs5
    · exact h
  have hd : s.offset - w ≤ 3 := by omega
  exact ⟨bitfieldMask_eq _ _ hs hd, extractBitfield_eq _ _ _ hraw hs hd⟩

/-- Witness for C1: the Type 1 layout's `Sub. Bus` field (offset 0x1A,
width 1) in the window at 0x18, on the documented raw dword 0x00261817. -/
theorem c1_mask_extraction_witness :
    bitfieldMask 1 (0x1A - 0x18) = ((1 <<< (1 * 8)) - 1) <<< (8 * (0x1A - 0x18)) ∧
    extractBitfield 0x00261817 1 (0x1A - 0x18)
      = (0x00261817 &&& (((1 <<< (1 * 8)) - 1) <<< (8 * (0x1A - 0x18))))
          >>> (8 * (0x1A - 0x18)) :=
  c1_mask_extraction 1 0x18 14 ⟨"Sub. Bus", 0x1A, 1⟩ 0x00261817
    (by decide) (by decide) (by decide) (by decide) (by decide)
    (by decide) (by decide) (by decide)

/-- C2: the layout-table invariant claimed by the spec fails on the code.
Both tables are strictly ascending by offset, but in both of them the
spans of the specs preceding the sentinel overlap (the `Class Code` entry
at offset 0xA with width 3 reaches into `Cache Line S` at 0xC) and do not
cover `[0, 0x40)` (no span contains byte 0x09). -/
theorem c2_layout_table_violation :
    sortedByOffset type_0_header.dropLast = true ∧
    sortedByOffset type_1_header.dropLast = true ∧
    disjointSpans type_0_header.dropLast = false ∧
    disjointSpans type_1_header.dropLast = false ∧
    coversRange type_0_header.dropLast = false ∧
    coversRange type_1_header.dropLast = false ∧
    type_0_header.get? 5 = some ⟨"Class Code", 0xA, 3⟩ ∧
    type_0_header.get? 6 = some ⟨"Cache Line S", 0xC, 1⟩ ∧
    (type_0_header.any
      (fun s => decide (s.offset ≤ 0x9) && decide (0x9 < s.offset + s.size))) = false ∧
    (type_1_header.any
      (fun s => decide (s.offset ≤ 0x9) && decide (0x9 < s.offset + s.size))) = false := by
  decide

/-- C3: the userspace variant rejects a header-type discriminant of 2 with
the two error lines before touching the layout table, but the kernel
variant in `src/pci_dev.c` has no such check: with `hdr_type = 2` it
indexes the 2-element `types` table out of bounds (undefined behaviour,
modelled `none`) instead of failing with a rejection and no output. -/
theorem c3_header_type_validation :
    print_pci_header 0 0 0 2 (fun _ => 0)
      = Except.error ["Unknown PCI header type: 2",
                      "Selected device 0:0:0 is an unknown type"] ∧
    print_pci_header_dev (some ⟨2, 0, 0, fun _ => 0⟩) = none :=
  ⟨rfl, rfl⟩

/-- C4 counterexample: decoding the window at 0x18 of the Type 1 layout
from the raw dword 0x26181817 does not give the claimed values — the
little-endian bytes of 0x26181817 put 0x18 at offset 0x1A (`Sub. Bus`)
and 0x26 at offset 0x1B (`Sec Lat timer`). -/
theorem c4_counterexample :
    windowDecode type_1_header 0x18 12 0x26181817
      ≠ [("Primary Bus", 0x17), ("Secondary Bus", 0x18),
         ("Sub. Bus", 0x26), ("Sec Lat timer", 0x00)] := by
  decide

/-- C4 as amended: the raw dword whose little-endian bytes are
17 18 26 00 is 0x00261817, and decoding it in the window at 0x18 of the
Type 1 layout yields Primary Bus 0x17, Secondary Bus 0x18, Sub. Bus 0x26
and Sec Lat timer 0x00, one byte each. -/
theorem c4_window_decode :
    windowDecode type_1_header 0x18 12 0x00261817
      = [("Primary Bus", 0x17), ("Secondary Bus", 0x18),
         ("Sub. Bus", 0x26), ("Sec Lat timer", 0x00)] := by
  decide

/-- The spec-side digit map lands in the uppercase hex alphabet. -/
lemma upperHexDigit_isUpper : ∀ n, n < 16 → isUpperHexDigit (upperHexDigit n) = true := by
  decide

/-- C5: for widths 1-4 and every value, `int_2_hexstr` renders `0x`
followed by exactly `2*size` uppercase hex digits: the low `2*size`
nibbles of the value, zero-padded on the left, never more digits even if
the value is wider than the field. -/
theorem c5_hex_zero_padded (size value : Nat) (h1 : 1 ≤ size) (h4 : size ≤ 4) :
    (int_2_hexstr value size).length = 2 + 2 * size ∧
    (int_2_hexstr value size).take 2 = ['0', 'x'] ∧
    ((int_2_hexstr value size).drop 2).all isUpperHexDigit = true ∧
    (int_2_hexstr value size).drop 2 = hexStringPadded (2 * size) value := by
  have heq := int_2_hexstr_eq value size
  refine ⟨int_2_hexstr_length value size, ?_, ?_, ?_⟩
  · rw [heq]
    rfl
  · rw [heq]
    simp only [List.drop_succ_cons, List.drop_zero]
    rw [List.all_eq_true]
    intro c hc
    rw [List.mem_map] at hc
    obtain ⟨k, hk, rfl⟩ := hc
    rw [hexDigit_shift_eq]
    exact upperHexDigit_isUpper _ (Nat.mod_lt _ (by norm_num))
  · rw [heq]
    simp only [List.drop_succ_cons, List.drop_zero]
    rw [hexStringPadded]
    exact List.map_congr_left (fun k _ => hexDigit_shift_eq value _)

/-- Witness for C5: the spec's own example, a 3-byte field with value
0x880 rendering as exactly six digits `000880`. -/
theorem c5_hex_zero_padded_witness :
    (int_2_hexstr 0x880 3).length = 2 + 2 * 3 ∧
    (int_2_hexstr 0x880 3).take 2 = ['0', 'x'] ∧
    ((int_2_hexstr 0x880 3).drop 2).all isUpperHexDigit = true ∧
    (int_2_hexstr 0x880 3).drop 2 = hexStringPadded (2 * 3) 0x880 :=
  c5_hex_zero_padded 3 0x880 (by decide) (by decide)

/-- C6 counterexample: for a 2-byte field the value row does not apply the
label row's centering rule to the formatted string's length — the code
pads by `(available - (2 + size)) / 2 = 12` spaces on the left, while the
claimed rule `(available - string_length) / 2` gives 11. -/
theorem c6_counterexample :
    ((value_cell ⟨"Vendor ID", 0x0, 2⟩ 0 0).takeWhile (fun c => c == ' ')).length
      ≠ (14 * 2 + (2 - 1) - (int_2_hexstr (extractBitfield 0 2 0) 2).length) / 2 := by
  decide

/-- C6 as amended: the value cell of a spec is the hex string padded with
exactly `(available - (2 + size)) / 2` spaces on the left — the centering
rule applied to `2 + size`, not to the string length `2 + 2*size` — and
space-filled on the right to the full column width
`14*size + (size - 1)`. -/
theorem c6_value_centering (s : config_space_bitfield) (w raw : Nat)
    (h1 : 1 ≤ s.size) (h4 : s.size ≤ 4) :
    value_cell s w raw
      = List.replicate ((14 * s.size + (s.size - 1) - (2 + s.size)) / 2) ' '
          ++ int_2_hexstr (extractBitfield raw s.size (s.offset - w)) s.size
          ++ List.replicate (14 * s.size + (s.size - 1)
              - ((14 * s.size + (s.size - 1) - (2 + s.size)) / 2 + (2 + 2 * s.size))) ' '
    ∧ (value_cell s w raw).length = 14 * s.size + (s.size - 1) := by
  have hlen := int_2_hexstr_length (extractBitfield raw s.size (s.offset - w)) s.size
  constructor
  · simp only [value_cell]
    rw [hlen]
  · simp only [value_cell]
    rw [List.length_append, List.length_append, List.length_replicate,
        List.length_replicate, hlen]
    have hsz : s.size = 1 ∨ s.size = 2 ∨ s.size = 3 ∨ s.size = 4 := by omega
    rcases hsz with h | h | h | h <;> rw [h]

/-- Witness for C6 (amended form) at the Vendor ID spec, window 0, raw 0. -/
theorem c6_value_centering_witness :
    value_cell ⟨"Vendor ID", 0x0, 2⟩ 0 0
      = List.replicate ((14 * 2 + (2 - 1) - (2 + 2)) / 2) ' '
          ++ int_2_hexstr (extractBitfield 0 2 (0x0 - 0)) 2
          ++ List.replicate (14 * 2 + (2 - 1)
              - ((14 * 2 + (2 - 1) - (2 + 2)) / 2 + (2 + 2 * 2))) ' '
    ∧ (value_cell ⟨"Vendor ID", 0x0, 2⟩ 0 0).length = 14 * 2 + (2 - 1) :=
  c6_value_centering ⟨"Vendor ID", 0x0, 2⟩ 0 0 (by decide) (by decide)

/-- C7: over all 16 windows of both layouts, the runs the renderer walks
consist of exactly the specs preceding the `End` sentinel (iteration stops
exactly at offset 0x40, so the sentinel's name is never emitted in any
window), and every spec in any run has width at most 4 — in particular
never width 5, so the value loop's width-5 break fires before any width-5
mask could be constructed. -/
theorem c7_sentinel_never_decoded :
    (windowRuns type_0_header).flatten = type_0_header.dropLast ∧
    (windowRuns type_1_header).flatten = type_1_header.dropLast ∧
    ((windowRuns type_0_header).all (fun run =>
      run.all (fun s => !(s.name == "End") && !(s.size == 5) && decide (s.size ≤ 4)))) = true ∧
    ((windowRuns type_1_header).all (fun run =>
      run.all (fun s => !(s.name == "End") && !(s.size == 5) && decide (s.size ≤ 4)))) = true := by
  decide

/-- C8 counterexample: the rendered table has 2 + 16*2 = 34 lines, not the
2 + 16*4 = 66 a banner, separator and sixteen four-line quartets would
give — label cells and value cells share one line per window. -/
theorem c8_counterexample :
    (renderTable type_0_header (fun _ => 0)).length ≠ 2 + 16 * 4 := by
  simp [renderTable, renderLoop_length]

/-- C8 as amended: the output is the banner line, the separator line with
the address column label, and then, for each of the 16 windows in
increasing offset order, a pair of lines: the combined label/value line of
that window (label cells, gap, value cells, trailing window offset)
followed by a separator line. -/
theorem c8_line_structure (layout : List config_space_bitfield) (read : Nat → Nat) :
    (renderTable layout read).length = 2 + 16 * 2 ∧
    (renderTable layout read)[0]? = some banner_line ∧
    (renderTable layout read)[1]? = some sep_addr_line ∧
    ∀ k, k < 16 →
      (renderTable layout read)[2 + 2 * k + 1]? = some separator_line ∧
      ∃ b, (renderTable layout read)[2 + 2 * k]?
        = some (window_line layout read (4 * k) b).1 := by
  refine ⟨?_, rfl, rfl, ?_⟩
  · simp [renderTable, renderLoop_length]
  · intro k hk
    constructor
    · have h2 : 2 + 2 * k + 1 = (2 * k + 1) + 1 + 1 := by omega
      rw [renderTable, h2]
      simp only [List.getElem?_cons_succ]
      exact renderLoop_get_odd layout read 16 k 0 0 hk
    · have h2 : 2 + 2 * k = (2 * k) + 1 + 1 := by omega
      rw [renderTable, h2]
      simp only [List.getElem?_cons_succ]
      obtain ⟨b, hb⟩ := renderLoop_get_even layout read 16 k 0 0 hk
      exact ⟨b, by simpa using hb⟩

/-- Witness for C8 (amended form): the Type 0 table over an all-zero
source has 34 lines and its first window pair ends with the separator. -/
theorem c8_line_structure_witness :
    (0 : Nat) < 16 ∧
    (renderTable type_0_header (fun _ => 0)).length = 2 + 16 * 2 ∧
    (renderTable type_0_header (fun _ => 0))[2 + 2 * 0 + 1]? = some separator_line :=
  ⟨by decide, (c8_line_structure type_0_header (fun _ => 0)).1,
    ((c8_line_structure type_0_header (fun _ => 0)).2.2.2 0 (by decide)).1⟩

/-- C9: rendering is a deterministic pure pass over the raw dwords — two
renderings over sources that supply the same raw dword for every window
base produce byte-identical text (in particular, rendering the same source
twice is idempotent). -/
theorem c9_render_deterministic (bus dev func header_type : Nat)
    (read read' : Nat → Nat)
    (h : ∀ w, w % 4 = 0 → w < 0x40 → read w = read' w) :
    print_pci_header bus dev func header_type read
      = print_pci_header bus dev func header_type read' := by
  by_cases hht : header_type ≠ 0 ∧ header_type ≠ 1
  · simp only [print_pci_header, if_pos hht]
  · simp only [print_pci_header, if_neg hht]
    have hren : renderTable (types.getD header_type []) read
        = renderTable (types.getD header_type []) read' := by
      rw [renderTable, renderTable,
          renderLoop_congr _ read read' 16 0 0
            (fun k hk => h (0 + 4 * k) (by omega) (by omega))]
    rw [hren]

/-- Witness for C9: the same source twice, Type 0. -/
theorem c9_render_deterministic_witness :
    print_pci_header 0x26 0 0 0 (fun _ => 0x10B5)
      = print_pci_header 0x26 0 0 0 (fun _ => 0x10B5) :=
  c9_render_deterministic 0x26 0 0 0 (fun _ => 0x10B5) (fun _ => 0x10B5)
    (fun _ _ _ => rfl)

/-- C10: the kernel-module variant called with a NULL device pointer
returns immediately with no output at all — no banner, no table lines and
no error message. -/
theorem c10_null_pdev_no_output : print_pci_header_dev none = some [] := rfl
